import Mathlib

/-!
Shallow embedding of `src/collector/collector.go` (package `collector` of
go-runtime-metrics): a periodic runtime-metrics sampler with per-category
enable flags, a mutable `Fields` snapshot, a continuous loop (`Run`) and a
one-off accessor (`OneOff`).

Modelling conventions:
* Go `int64` values are modelled as `Int`; conversions `int64(u)` from a
  `uint64` source are modelled by `toInt64` (two's-complement narrowing),
  and from a `uint32` source by plain coercion (always value-preserving).
* `float64` (only `GCCPUFraction`) is modelled as `Rat`: the code performs
  no arithmetic on it, it is only copied verbatim, so an exact numeric
  carrier is faithful.
* The runtime collaborator (`runtime.NumGoroutine`, `runtime.NumCgoCall`,
  `runtime.ReadMemStats`) is an external input: each collection cycle takes
  the values it would read as parameters (`cpuStats`, `MemStats`).
* The consumer callback `fieldsFunc` receives its `Fields` argument by value
  (Go struct copy); a cycle is modelled as returning the list of arguments
  passed to the consumer, and `outputStatsWith` additionally threads a
  mutation the consumer applies to its own copy.
* `Run`'s ticker/`Done`-channel loop is modelled over an explicit trace of
  events (`tick` = one elapsed interval with the runtime readings of that
  cycle, `stop` = the `Done` channel closed). `time.NewTicker` panics on a
  non-positive duration; the model records that as a `panicked` outcome.
-/

namespace collector

/-- Go `uint64` → `int64` conversion: reinterpret the low 64 bits in
two's complement. -/
def toInt64 (n : Nat) : Int :=
  let m : Nat := n % 2 ^ 64
  if m < 2 ^ 63 then (m : Int) else (m : Int) - 2 ^ 64

/-- `time.Second` in nanoseconds (Go `time.Duration` is an `int64` count of
nanoseconds). -/
def timeSecond : Int := 1000000000

/-- The snapshot record `Fields` of collector.go (json tags shown in the
source are the map keys of `ToMap`). All `int64` fields are `Int`; the
`float64` field `GCCPUFraction` is `Rat`. -/
structure Fields where
  -- CPU
  NumGoroutine : Int := 0
  NumCgoCall : Int := 0
  -- General
  Alloc : Int := 0
  TotalAlloc : Int := 0
  Sys : Int := 0
  Lookups : Int := 0
  Mallocs : Int := 0
  Frees : Int := 0
  -- Heap
  HeapAlloc : Int := 0
  HeapSys : Int := 0
  HeapIdle : Int := 0
  HeapInuse : Int := 0
  HeapReleased : Int := 0
  HeapObjects : Int := 0
  -- Stack
  StackInuse : Int := 0
  StackSys : Int := 0
  MSpanInuse : Int := 0
  MSpanSys : Int := 0
  MCacheInuse : Int := 0
  MCacheSys : Int := 0
  OtherSys : Int := 0
  -- GC
  GCSys : Int := 0
  NextGC : Int := 0
  LastGC : Int := 0
  PauseTotalNs : Int := 0
  PauseNs : Int := 0
  NumGC : Int := 0
  GCCPUFraction : Rat := 0

/-- The zero-value `Fields{}` literal of Go. -/
def Fields.zero : Fields := {}

instance : Inhabited Fields := ⟨Fields.zero⟩

/-- The `runtime.MemStats` fields read by the collector. Unsigned 64-bit
counters are `Nat`; `PauseNs [256]uint64` is modelled as an index function;
`NumGC uint32` as `Nat`; `GCCPUFraction float64` as `Rat`. -/
structure MemStats where
  Alloc : Nat := 0
  TotalAlloc : Nat := 0
  Sys : Nat := 0
  Lookups : Nat := 0
  Mallocs : Nat := 0
  Frees : Nat := 0
  HeapAlloc : Nat := 0
  HeapSys : Nat := 0
  HeapIdle : Nat := 0
  HeapInuse : Nat := 0
  HeapReleased : Nat := 0
  HeapObjects : Nat := 0
  StackInuse : Nat := 0
  StackSys : Nat := 0
  MSpanInuse : Nat := 0
  MSpanSys : Nat := 0
  MCacheInuse : Nat := 0
  MCacheSys : Nat := 0
  OtherSys : Nat := 0
  GCSys : Nat := 0
  NextGC : Nat := 0
  LastGC : Nat := 0
  PauseTotalNs : Nat := 0
  PauseNs : Nat → Nat := fun _ => 0
  NumGC : Nat := 0
  GCCPUFraction : Rat := 0

/-- `cpuStats` of collector.go: `int64` copies of `runtime.NumGoroutine()`
and `runtime.NumCgoCall()`. -/
structure cpuStats where
  NumGoroutine : Int := 0
  NumCgoCall : Int := 0

/-- `FieldsFunc func(Fields)`: the consumer callback. Its Go-side effects
are outside the embedding; invocations are recorded by the cycle itself. -/
def FieldsFunc : Type := Fields → Unit

/-- The no-op consumer `func(Fields) {}` substituted by `New` for nil. -/
def FieldsFunc.noOp : FieldsFunc := fun _ => ()

/-- The `Collector` struct. `fieldsFunc` keeps Go's nilability: `none`
models a nil function value. `doneNil` records whether the `Done` channel
is nil (a nil channel never delivers, so the loop can never see a stop). -/
structure Collector where
  PauseDur : Int
  EnableCPU : Bool
  EnableMem : Bool
  EnableGC : Bool
  doneNil : Bool
  fieldsFunc : Option FieldsFunc
  fields : Fields

/-- `New(fieldsFunc)`: substitute a no-op for a nil callback, then build the
collector with defaults `PauseDur = 10*time.Second` and all three enable
flags true. `Done` is left at its zero value (nil channel); `fields` at the
zero `Fields{}`. -/
def New (fieldsFunc : Option FieldsFunc) : Collector :=
  let f := match fieldsFunc with
    | none => FieldsFunc.noOp
    | some g => g
  { PauseDur := 10 * timeSecond
    EnableCPU := true
    EnableMem := true
    EnableGC := true
    doneNil := true
    fieldsFunc := some f
    fields := Fields.zero }

/-- Caller-side assignment to the exported `PauseDur` field (plain field
write, no validation anywhere in the package). -/
def setPauseDur (c : Collector) (d : Int) : Collector := { c with PauseDur := d }

/-- `outputCPUStats`: overwrite the CPU category fields. -/
def outputCPUStats (c : Collector) (s : cpuStats) : Collector :=
  { c with fields := { c.fields with
      NumGoroutine := s.NumGoroutine
      NumCgoCall := s.NumCgoCall } }

/-- `outputMemStats`: overwrite the general/heap/stack memory fields with
the `int64(...)` narrowings of the `MemStats` readings. -/
def outputMemStats (c : Collector) (m : MemStats) : Collector :=
  { c with fields := { c.fields with
      Alloc := toInt64 m.Alloc
      TotalAlloc := toInt64 m.TotalAlloc
      Sys := toInt64 m.Sys
      Lookups := toInt64 m.Lookups
      Mallocs := toInt64 m.Mallocs
      Frees := toInt64 m.Frees
      HeapAlloc := toInt64 m.HeapAlloc
      HeapSys := toInt64 m.HeapSys
      HeapIdle := toInt64 m.HeapIdle
      HeapInuse := toInt64 m.HeapInuse
      HeapReleased := toInt64 m.HeapReleased
      HeapObjects := toInt64 m.HeapObjects
      StackInuse := toInt64 m.StackInuse
      StackSys := toInt64 m.StackSys
      MSpanInuse := toInt64 m.MSpanInuse
      MSpanSys := toInt64 m.MSpanSys
      MCacheInuse := toInt64 m.MCacheInuse
      MCacheSys := toInt64 m.MCacheSys
      OtherSys := toInt64 m.OtherSys } }

/-- The index `(m.NumGC+255)%256` into the 256-slot recent-pause circular
buffer used by `outputGCStats`. (Go computes it in `uint32`; since
`256 ∣ 2^32` the `uint32` wraparound never changes the result.) -/
def recentPauseIndex (numGC : Nat) : Nat := (numGC + 255) % 256

/-- `outputGCStats`: overwrite the GC category fields, reading the most
recent pause at `PauseNs[(NumGC+255)%256]`. `int64(NumGC)` from `uint32` is
value-preserving. -/
def outputGCStats (c : Collector) (m : MemStats) : Collector :=
  { c with fields := { c.fields with
      GCSys := toInt64 m.GCSys
      NextGC := toInt64 m.NextGC
      LastGC := toInt64 m.LastGC
      PauseTotalNs := toInt64 m.PauseTotalNs
      PauseNs := toInt64 (m.PauseNs (recentPauseIndex m.NumGC))
      NumGC := (m.NumGC : Int)
      GCCPUFraction := m.GCCPUFraction }}

/-- `outputStats`: one collection-and-dispatch cycle under the lock. The
CPU category is collected when `EnableCPU`, the memory category when
`EnableMem`, and the GC category only inside the `EnableMem` branch when
also `EnableGC`. Finally `c.fieldsFunc(c.fields)` is called exactly once;
the returned list records the arguments of the consumer invocations of
this cycle. -/
def outputStats (c : Collector) (s : cpuStats) (m : MemStats) :
    Collector × List Fields :=
  let c1 := if c.EnableCPU then outputCPUStats c s else c
  let c2 :=
    if c.EnableMem then
      let cm := outputMemStats c1 m
      if c.EnableGC then outputGCStats cm m else cm
    else c1
  (c2, [c2.fields])

/-- A collection cycle in which the consumer mutates its by-value `Fields`
argument by `g`: the argument is a Go struct copy, so the mutation lives
only in the consumer's copy (second component); the collector state is the
one `outputStats` produces. -/
def outputStatsWith (g : Fields → Fields) (c : Collector) (s : cpuStats)
    (m : MemStats) : Collector × List Fields :=
  let r := outputStats c s m
  (r.1, r.2.map g)

/-- `OneOff`: run one cycle, return (new state, snapshot handed to the
caller, consumer invocations of the cycle). The deferred
`c.fields = Fields{}` resets the internal snapshot after the return value
(a struct copy of `c.fields`) has been taken. -/
def OneOff (c : Collector) (s : cpuStats) (m : MemStats) :
    Collector × Fields × List Fields :=
  let r := outputStats c s m
  ({ r.1 with fields := Fields.zero }, r.1.fields, r.2)

/-- One event observed by `Run`'s `select` loop: either one `PauseDur`
interval elapsed (`tick`, carrying the runtime readings of that cycle) or
the `Done` channel closed (`stop`). -/
inductive RunEvent where
  | tick (s : cpuStats) (m : MemStats)
  | stop

/-- Whether an event is the stop signal. A nil `Done` channel never
delivers, so a collector with `doneNil = true` only ever observes `tick`
events. -/
def RunEvent.isStop : RunEvent → Bool
  | RunEvent.stop => true
  | RunEvent.tick _ _ => false

/-- Result of the `select` loop: final state, consumer invocations made by
the loop's cycles, and whether the loop returned (saw the stop signal). -/
structure LoopResult where
  state : Collector
  emitted : List Fields
  returned : Bool

/-- The `for { select ... } }` loop of `Run`: a `stop` event returns; a
`tick` event runs `outputStats` and loops. An exhausted (finite) trace with
no stop leaves the loop still running (`returned = false`). -/
def runLoop (c : Collector) : List RunEvent → LoopResult
  | [] => ⟨c, [], false⟩
  | RunEvent.stop :: _ => ⟨c, [], true⟩
  | RunEvent.tick s m :: rest =>
      let r := outputStats c s m
      let l := runLoop r.1 rest
      ⟨l.state, r.2 ++ l.emitted, l.returned⟩

/-- Result of `Run`: final state, all consumer invocations, whether
`time.NewTicker(c.PauseDur)` panicked (it does for a non-positive
duration), and whether `Run` returned normally. -/
structure RunResult where
  state : Collector
  emitted : List Fields
  panicked : Bool
  returned : Bool

/-- `Run`: first `c.outputStats()` unconditionally, then
`time.NewTicker(c.PauseDur)` (which panics when `PauseDur ≤ 0` — nothing in
the package validates the interval), then the select loop over the event
trace. -/
def Run (c : Collector) (s0 : cpuStats) (m0 : MemStats)
    (events : List RunEvent) : RunResult :=
  let r0 := outputStats c s0 m0
  if c.PauseDur ≤ 0 then ⟨r0.1, r0.2, true, false⟩
  else
    let l := runLoop r0.1 events
    ⟨l.state, r0.2 ++ l.emitted, false, l.returned⟩

/-- A value stored in the `map[string]interface{}` built by `ToMap`:
either an `int64` or a `float64`. -/
inductive MVal where
  | i64 (v : Int)
  | f64 (v : Rat)
  deriving DecidableEq, Repr

/-- `(f *Fields) ToMap()`: the map literal of collector.go, modelled as the
association list of its 28 entries (Go map keys are unordered and unique;
the listed keys are pairwise distinct). -/
def Fields.toMap (f : Fields) : List (String × MVal) :=
  [("cpu.goroutines", MVal.i64 f.NumGoroutine),
   ("cpu.cgo_calls", MVal.i64 f.NumCgoCall),
   ("mem.alloc", MVal.i64 f.Alloc),
   ("mem.total", MVal.i64 f.TotalAlloc),
   ("mem.sys", MVal.i64 f.Sys),
   ("mem.lookups", MVal.i64 f.Lookups),
   ("mem.malloc", MVal.i64 f.Mallocs),
   ("mem.frees", MVal.i64 f.Frees),
   ("mem.heap.alloc", MVal.i64 f.HeapAlloc),
   ("mem.heap.sys", MVal.i64 f.HeapSys),
   ("mem.heap.idle", MVal.i64 f.HeapIdle),
   ("mem.heap.inuse", MVal.i64 f.HeapInuse),
   ("mem.heap.released", MVal.i64 f.HeapReleased),
   ("mem.heap.objects", MVal.i64 f.HeapObjects),
   ("mem.stack.inuse", MVal.i64 f.StackInuse),
   ("mem.stack.sys", MVal.i64 f.StackSys),
   ("mem.stack.mspan_inuse", MVal.i64 f.MSpanInuse),
   ("mem.stack.mspan_sys", MVal.i64 f.MSpanSys),
   ("mem.stack.mcache_inuse", MVal.i64 f.MCacheInuse),
   ("mem.stack.mcache_sys", MVal.i64 f.MCacheSys),
   ("mem.othersys", MVal.i64 f.OtherSys),
   ("mem.gc.sys", MVal.i64 f.GCSys),
   ("mem.gc.next", MVal.i64 f.NextGC),
   ("mem.gc.last", MVal.i64 f.LastGC),
   ("mem.gc.pause_total", MVal.i64 f.PauseTotalNs),
   ("mem.gc.pause", MVal.i64 f.PauseNs),
   ("mem.gc.count", MVal.i64 f.NumGC),
   ("mem.gc.cpu_fraction", MVal.f64 f.GCCPUFraction)]

/-- CPU-category projection of a snapshot. -/
def cpuPart (f : Fields) : Int × Int := (f.NumGoroutine, f.NumCgoCall)

/-- Memory-category (general/heap/stack) projection of a snapshot. -/
def memPart (f : Fields) :
    Int × Int × Int × Int × Int × Int × Int × Int × Int × Int × Int × Int ×
      Int × Int × Int × Int × Int × Int × Int :=
  (f.Alloc, f.TotalAlloc, f.Sys, f.Lookups, f.Mallocs, f.Frees,
   f.HeapAlloc, f.HeapSys, f.HeapIdle, f.HeapInuse, f.HeapReleased,
   f.HeapObjects, f.StackInuse, f.StackSys, f.MSpanInuse, f.MSpanSys,
   f.MCacheInuse, f.MCacheSys, f.OtherSys)

/-- GC-category projection of a snapshot. -/
def gcPart (f : Fields) : Int × Int × Int × Int × Int × Int × Rat :=
  (f.GCSys, f.NextGC, f.LastGC, f.PauseTotalNs, f.PauseNs, f.NumGC,
   f.GCCPUFraction)

/-- The GC-category values `outputGCStats` writes from a `MemStats`
reading. -/
def gcValues (m : MemStats) : Int × Int × Int × Int × Int × Int × Rat :=
  (toInt64 m.GCSys, toInt64 m.NextGC, toInt64 m.LastGC,
   toInt64 m.PauseTotalNs, toInt64 (m.PauseNs (recentPauseIndex m.NumGC)),
   (m.NumGC : Int), m.GCCPUFraction)

/-- Read an `int64` entry of a `ToMap`-style map (zero when absent). -/
def readI (l : List (String × MVal)) (k : String) : Int :=
  match l.lookup k with
  | some (MVal.i64 v) => v
  | _ => 0

/-- Read the `float64` entry of a `ToMap`-style map (zero when absent). -/
def readF (l : List (String × MVal)) (k : String) : Rat :=
  match l.lookup k with
  | some (MVal.f64 v) => v
  | _ => 0

/-- Modelled from the spec: the conceptual inverse of `ToMap` — the spec's
round-trip property reads "converting a snapshot to its flat key-value
representation and back (conceptually)", but no inverse exists in the
source, so it is reconstructed from the spec's words: read every snapshot
field back out of the map under that field's name. -/
def fieldsFromMap (l : List (String × MVal)) : Fields :=
  { NumGoroutine := readI l "cpu.goroutines"
    NumCgoCall := readI l "cpu.cgo_calls"
    Alloc := readI l "mem.alloc"
    TotalAlloc := readI l "mem.total"
    Sys := readI l "mem.sys"
    Lookups := readI l "mem.lookups"
    Mallocs := readI l "mem.malloc"
    Frees := readI l "mem.frees"
    HeapAlloc := readI l "mem.heap.alloc"
    HeapSys := readI l "mem.heap.sys"
    HeapIdle := readI l "mem.heap.idle"
    HeapInuse := readI l "mem.heap.inuse"
    HeapReleased := readI l "mem.heap.released"
    HeapObjects := readI l "mem.heap.objects"
    StackInuse := readI l "mem.stack.inuse"
    StackSys := readI l "mem.stack.sys"
    MSpanInuse := readI l "mem.stack.mspan_inuse"
    MSpanSys := readI l "mem.stack.mspan_sys"
    MCacheInuse := readI l "mem.stack.mcache_inuse"
    MCacheSys := readI l "mem.stack.mcache_sys"
    OtherSys := readI l "mem.othersys"
    GCSys := readI l "mem.gc.sys"
    NextGC := readI l "mem.gc.next"
    LastGC := readI l "mem.gc.last"
    PauseTotalNs := readI l "mem.gc.pause_total"
    PauseNs := readI l "mem.gc.pause"
    NumGC := readI l "mem.gc.count"
    GCCPUFraction := readF l "mem.gc.cpu_fraction" }

/-- Modelled from the spec: the runtime collaborator's recent-pause history
— "a fixed-size circular buffer of recent pause durations", with "exactly
256 slots" and a monotonically increasing cycle count, where the k-th write
(k = 0, 1, 2, ...) lands in slot `k % 256`. `gcWriteSeq buf k ps` applies
the writes `ps` in order, the first being write number `k`. -/
def gcWriteSeq (buf : Nat → Nat) (k : Nat) : List Nat → (Nat → Nat)
  | [] => buf
  | p :: ps => gcWriteSeq (fun i => if i = k % 256 then p else buf i) (k + 1) ps

/-- Buffer contents after the pause durations `ps` have been written in
order into an initially zero buffer (write number 0 first). After `n`
completed GC cycles the slot most recently written is `(n - 1) % 256`. -/
def gcBuf (ps : List Nat) : Nat → Nat := gcWriteSeq (fun _ => 0) 0 ps

/-- The memory-category values `outputMemStats` writes from a `MemStats`
reading. -/
def memValues (m : MemStats) :
    Int × Int × Int × Int × Int × Int × Int × Int × Int × Int × Int × Int ×
      Int × Int × Int × Int × Int × Int × Int :=
  (toInt64 m.Alloc, toInt64 m.TotalAlloc, toInt64 m.Sys, toInt64 m.Lookups,
   toInt64 m.Mallocs, toInt64 m.Frees, toInt64 m.HeapAlloc,
   toInt64 m.HeapSys, toInt64 m.HeapIdle, toInt64 m.HeapInuse,
   toInt64 m.HeapReleased, toInt64 m.HeapObjects, toInt64 m.StackInuse,
   toInt64 m.StackSys, toInt64 m.MSpanInuse, toInt64 m.MSpanSys,
   toInt64 m.MCacheInuse, toInt64 m.MCacheSys, toInt64 m.OtherSys)

example : recentPauseIndex 0 = 255 := by decide

example : recentPauseIndex 300 = 43 := by decide

example : toInt64 5 = 5 := by norm_num [toInt64]

example : toInt64 (2 ^ 64 - 1) = -1 := by norm_num [toInt64]

/-- A cycle invokes the consumer exactly once, with the post-collection
snapshot. -/
theorem outputStats_emits (c : Collector) (s : cpuStats) (m : MemStats) :
    (outputStats c s m).2 = [(outputStats c s m).1.fields] := rfl

/-- A cycle never touches the configuration, the stop channel or the
stored consumer. -/
theorem outputStats_config (c : Collector) (s : cpuStats) (m : MemStats) :
    (outputStats c s m).1.PauseDur = c.PauseDur ∧
    (outputStats c s m).1.EnableCPU = c.EnableCPU ∧
    (outputStats c s m).1.EnableMem = c.EnableMem ∧
    (outputStats c s m).1.EnableGC = c.EnableGC ∧
    (outputStats c s m).1.doneNil = c.doneNil ∧
    (outputStats c s m).1.fieldsFunc = c.fieldsFunc := by
  cases hc : c.EnableCPU <;> cases hm : c.EnableMem <;>
    cases hg : c.EnableGC <;>
    simp [outputStats, outputCPUStats, outputMemStats, outputGCStats,
      hc, hm, hg]

/-- CPU fields after a cycle: fresh readings when `EnableCPU`, otherwise
the prior values. -/
theorem cpuPart_outputStats (c : Collector) (s : cpuStats) (m : MemStats) :
    cpuPart (outputStats c s m).1.fields =
      if c.EnableCPU then (s.NumGoroutine, s.NumCgoCall)
      else cpuPart c.fields := by
  cases hc : c.EnableCPU <;> cases hm : c.EnableMem <;>
    cases hg : c.EnableGC <;>
    simp [outputStats, outputCPUStats, outputMemStats, outputGCStats,
      cpuPart, hc, hm, hg]

/-- Memory fields after a cycle: fresh readings when `EnableMem`, otherwise
the prior values. -/
theorem memPart_outputStats (c : Collector) (s : cpuStats) (m : MemStats) :
    memPart (outputStats c s m).1.fields =
      if c.EnableMem then memValues m else memPart c.fields := by
  cases hc : c.EnableCPU <;> cases hm : c.EnableMem <;>
    cases hg : c.EnableGC <;>
    simp [outputStats, outputCPUStats, outputMemStats, outputGCStats,
      memPart, memValues, hc, hm, hg]

/-- GC fields after a cycle: fresh readings exactly when both `EnableMem`
and `EnableGC` hold, otherwise the prior values. -/
theorem gcPart_outputStats (c : Collector) (s : cpuStats) (m : MemStats) :
    gcPart (outputStats c s m).1.fields =
      if c.EnableMem && c.EnableGC then gcValues m
      else gcPart c.fields := by
  cases hc : c.EnableCPU <;> cases hm : c.EnableMem <;>
    cases hg : c.EnableGC <;>
    simp [outputStats, outputCPUStats, outputMemStats, outputGCStats,
      gcPart, gcValues, hc, hm, hg]

/-- The value most recently written to the circular buffer survives in its
slot: after the writes `qs ++ [p]`, the first being write number `k`, slot
`(k + qs.length) % 256` holds `p`. -/
theorem gcWriteSeq_last (p : Nat) :
    ∀ (qs : List Nat) (buf : Nat → Nat) (k : Nat),
      gcWriteSeq buf k (qs ++ [p]) ((k + qs.length) % 256) = p := by
  intro qs
  induction qs with
  | nil => intro buf k; simp [gcWriteSeq]
  | cons q qs ih =>
    intro buf k
    have h := ih (fun i => if i = k % 256 then q else buf i) (k + 1)
    simpa [gcWriteSeq, List.cons_append, List.length_cons, Nat.add_comm,
      Nat.add_left_comm, Nat.add_assoc] using h

/-- The loop's consumer-invocation count equals the number of ticks before
the first stop event. -/
theorem runLoop_emitted_length (events : List RunEvent) :
    ∀ c, (runLoop c events).emitted.length =
      (events.takeWhile (fun e => !e.isStop)).length := by
  induction events with
  | nil => intro c; rfl
  | cons e rest ih =>
    intro c
    cases e with
    | stop => simp [runLoop, RunEvent.isStop, List.takeWhile_cons]
    | tick s m =>
      simp [runLoop, RunEvent.isStop, List.takeWhile_cons,
        outputStats_emits, ih]

/-- The loop returns exactly when the trace contains a stop event. -/
theorem runLoop_returned (events : List RunEvent) :
    ∀ c, (runLoop c events).returned = events.any RunEvent.isStop := by
  induction events with
  | nil => intro c; rfl
  | cons e rest ih =>
    intro c
    cases e with
    | stop => simp [runLoop, RunEvent.isStop]
    | tick s m => simp [runLoop, RunEvent.isStop, ih]

/-- A concrete CPU reading used in witnesses and counterexamples. -/
def sC : cpuStats := { NumGoroutine := 7, NumCgoCall := 3 }

/-- A concrete (all-zero) memory reading used in witnesses and
counterexamples. -/
def mC : MemStats := {}

/-- A collector with every category disabled, used in witnesses. -/
def cAllOff : Collector :=
  { New none with EnableCPU := false, EnableMem := false, EnableGC := false }

/-- A collector with only the CPU category disabled, used in witnesses. -/
def cCpuOff : Collector := { New none with EnableCPU := false }

/-- C3: for every configuration with all three category-enable flags false
and every prior snapshot state, one collection cycle leaves every field of
the snapshot — indeed the whole collector — unchanged. -/
theorem cycle_all_disabled_unchanged (c : Collector) (s : cpuStats)
    (m : MemStats) (hc : c.EnableCPU = false) (hm : c.EnableMem = false)
    (_hg : c.EnableGC = false) :
    (outputStats c s m).1.fields = c.fields ∧ (outputStats c s m).1 = c := by
  have h : (outputStats c s m).1 = c := by simp [outputStats, hc, hm]
  exact ⟨by rw [h], h⟩

/-- C3 witness: a concrete all-disabled collector is left unchanged by a
cycle. -/
theorem cycle_all_disabled_unchanged_witness :
    (outputStats cAllOff sC mC).1.fields = cAllOff.fields ∧
    (outputStats cAllOff sC mC).1 = cAllOff :=
  cycle_all_disabled_unchanged cAllOff sC mC rfl rfl rfl

/-- C4: the recent-pause index `(count + 255) % 256` yields 255 at
`count = 0` and 43 at `count = 300`, and for every write history of the
256-slot circular buffer (the count only increasing, one write per
completed cycle) it addresses the slot most recently written. -/
theorem recentPauseIndex_correct :
    recentPauseIndex 0 = 255 ∧ recentPauseIndex 300 = 43 ∧
    ∀ (qs : List Nat) (p : Nat),
      gcBuf (qs ++ [p]) (recentPauseIndex (qs ++ [p]).length) = p := by
  refine ⟨rfl, rfl, ?_⟩
  intro qs p
  have h := gcWriteSeq_last p qs (fun _ => 0) 0
  have hidx : recentPauseIndex (qs ++ [p]).length = (0 + qs.length) % 256 := by
    simp only [recentPauseIndex, List.length_append, List.length_cons,
      List.length_nil, Nat.zero_add]
    omega
  rw [gcBuf, hidx]
  exact h

/-- C6: the GC fields are refreshed by a cycle exactly when both
`EnableMem` and `EnableGC` hold; with `EnableMem` false the GC flag has no
effect at all (the resulting snapshot is identical for both settings) and
the GC fields keep their prior values. -/
theorem gc_updated_iff_mem_and_gc (c : Collector) (s : cpuStats)
    (m : MemStats) :
    (gcPart (outputStats c s m).1.fields =
      if c.EnableMem && c.EnableGC then gcValues m else gcPart c.fields) ∧
    ((outputStats { c with EnableMem := false, EnableGC := true } s m).1.fields
      = (outputStats { c with EnableMem := false, EnableGC := false } s
          m).1.fields) := by
  refine ⟨gcPart_outputStats c s m, ?_⟩
  cases hc : c.EnableCPU <;>
    simp [outputStats, outputCPUStats, hc]

/-- C7: `New` yields the defaults — interval `10 * time.Second` and all
three category flags true — for every consumer argument, and a nil
consumer argument is replaced by the no-op, so the stored consumer is
never nil. -/
theorem new_defaults (f : Option FieldsFunc) :
    (New f).PauseDur = 10 * timeSecond ∧
    (New f).EnableCPU = true ∧
    (New f).EnableMem = true ∧
    (New f).EnableGC = true ∧
    (New none).fieldsFunc = some FieldsFunc.noOp ∧
    (New f).fieldsFunc.isSome = true := by
  refine ⟨rfl, rfl, rfl, rfl, rfl, ?_⟩
  cases f <;> rfl

/-- C1 counterexample: a continuous-loop cycle (which never resets the
snapshot) runs with CPU collection enabled and records 7 goroutines; the
caller then disables the CPU category and calls `OneOff`, which returns a
snapshot whose CPU-category field still holds the stale 7 from the earlier
cycle instead of the zero value. -/
theorem oneOff_stale_counterexample :
    ({ (outputStats (New none) sC mC).1 with
        EnableCPU := false } : Collector).EnableCPU = false ∧
    (OneOff { (outputStats (New none) sC mC).1 with EnableCPU := false }
        sC mC).2.1.NumGoroutine = 7 ∧
    (7 : Int) ≠ 0 := by
  refine ⟨?_, ?_, by norm_num⟩ <;>
    simp [OneOff, outputStats, outputCPUStats, outputMemStats,
      outputGCStats, New, sC, mC]

/-- C1 (amended): when the internal snapshot's fields for each disabled
category are zero before the call — as after construction or immediately
after a previous `OneOff` — `OneOff` returns a snapshot whose
disabled-category fields equal their zero value; and unconditionally,
after `OneOff` returns the internal snapshot is the zero-value snapshot. -/
theorem oneOff_disabled_zero_of_zero (c : Collector) (s : cpuStats)
    (m : MemStats) :
    (c.EnableCPU = false → cpuPart c.fields = cpuPart Fields.zero →
      cpuPart (OneOff c s m).2.1 = cpuPart Fields.zero) ∧
    (c.EnableMem = false → memPart c.fields = memPart Fields.zero →
      memPart (OneOff c s m).2.1 = memPart Fields.zero) ∧
    ((c.EnableMem && c.EnableGC) = false →
      gcPart c.fields = gcPart Fields.zero →
      gcPart (OneOff c s m).2.1 = gcPart Fields.zero) ∧
    (OneOff c s m).1.fields = Fields.zero := by
  refine ⟨?_, ?_, ?_, rfl⟩
  · intro h hz
    have hp : cpuPart (OneOff c s m).2.1 =
        cpuPart (outputStats c s m).1.fields := rfl
    rw [hp, cpuPart_outputStats, h]
    simpa using hz
  · intro h hz
    have hp : memPart (OneOff c s m).2.1 =
        memPart (outputStats c s m).1.fields := rfl
    rw [hp, memPart_outputStats, h]
    simpa using hz
  · intro h hz
    have hp : gcPart (OneOff c s m).2.1 =
        gcPart (outputStats c s m).1.fields := rfl
    rw [hp, gcPart_outputStats, h]
    simpa using hz

/-- C1 witness: a freshly constructed collector with the CPU category
disabled; `OneOff` returns zero CPU fields and leaves the internal
snapshot zeroed. -/
theorem oneOff_disabled_zero_of_zero_witness :
    cpuPart (OneOff cCpuOff sC mC).2.1 = cpuPart Fields.zero ∧
    (OneOff cCpuOff sC mC).1.fields = Fields.zero :=
  ⟨(oneOff_disabled_zero_of_zero cCpuOff sC mC).1 rfl rfl,
   (oneOff_disabled_zero_of_zero cCpuOff sC mC).2.2.2⟩

/-- C2: a `Run` tick performs one collection cycle and no reset (the
snapshot after the cycle retains every disabled category's fields from
before the cycle), while every `OneOff` call leaves the internal snapshot
as the zero-value snapshot. -/
theorem tick_no_reset_oneOff_resets (c : Collector) (s : cpuStats)
    (m : MemStats) (rest : List RunEvent) :
    runLoop c (RunEvent.tick s m :: rest) =
      ⟨(runLoop (outputStats c s m).1 rest).state,
        (outputStats c s m).1.fields ::
          (runLoop (outputStats c s m).1 rest).emitted,
        (runLoop (outputStats c s m).1 rest).returned⟩ ∧
    (c.EnableCPU = false →
      cpuPart (outputStats c s m).1.fields = cpuPart c.fields) ∧
    (c.EnableMem = false →
      memPart (outputStats c s m).1.fields = memPart c.fields) ∧
    ((c.EnableMem && c.EnableGC) = false →
      gcPart (outputStats c s m).1.fields = gcPart c.fields) ∧
    (OneOff c s m).1.fields = Fields.zero := by
  refine ⟨rfl, ?_, ?_, ?_, rfl⟩
  · intro h; rw [cpuPart_outputStats, h]; simp
  · intro h; rw [memPart_outputStats, h]; simp
  · intro h; rw [gcPart_outputStats, h]; simp

/-- C2 witness: with all categories disabled, a tick retains the CPU
fields and `OneOff` still resets the internal snapshot. -/
theorem tick_no_reset_oneOff_resets_witness :
    cpuPart (outputStats cAllOff sC mC).1.fields = cpuPart cAllOff.fields ∧
    (OneOff cAllOff sC mC).1.fields = Fields.zero :=
  ⟨(tick_no_reset_oneOff_resets cAllOff sC mC []).2.1 rfl,
   (tick_no_reset_oneOff_resets cAllOff sC mC []).2.2.2.2⟩

/-- C5: with a positive interval, `Run` performs one cycle immediately
(its output heads the emission list), then exactly one cycle per elapsed
interval until the first stop event, and returns exactly when the trace
contains a stop event — a nil `Done` channel yields no stop events, so
`Run` then never returns. -/
theorem run_cycles_and_termination (c : Collector) (s : cpuStats)
    (m : MemStats) (events : List RunEvent) (hd : 0 < c.PauseDur) :
    (Run c s m events).panicked = false ∧
    (Run c s m events).emitted.head? =
      some (outputStats c s m).1.fields ∧
    (Run c s m events).emitted.length =
      1 + (events.takeWhile (fun e => !e.isStop)).length ∧
    ((Run c s m events).returned = true ↔
      events.any RunEvent.isStop = true) := by
  have hnle : ¬ c.PauseDur ≤ 0 := not_le.mpr hd
  refine ⟨?_, ?_, ?_, ?_⟩ <;>
    simp [Run, hnle, outputStats_emits, runLoop_emitted_length,
      runLoop_returned, Nat.add_comm]

/-- C5 witness: the default collector (10 s interval) on the trace
`[tick, stop]`: no panic, two cycles, and it returns. -/
theorem run_cycles_and_termination_witness :
    (Run (New none) sC mC [RunEvent.tick sC mC, RunEvent.stop]).panicked
      = false ∧
    (Run (New none) sC mC
      [RunEvent.tick sC mC, RunEvent.stop]).emitted.length = 2 ∧
    (Run (New none) sC mC [RunEvent.tick sC mC, RunEvent.stop]).returned
      = true := by
  have h := run_cycles_and_termination (New none) sC mC
    [RunEvent.tick sC mC, RunEvent.stop]
    (by norm_num [New, timeSecond])
  refine ⟨h.1, ?_, h.2.2.2.mpr (by decide)⟩
  rw [h.2.2.1]
  decide

/-- C8 counterexample: setting the exported interval field to 0 after
construction is accepted verbatim — neither rejected nor replaced with the
default at configuration time — and `Run` on the resulting collector
panics at ticker creation. -/
theorem interval_not_validated_counterexample :
    (setPauseDur (New none) 0).PauseDur = 0 ∧
    (Run (setPauseDur (New none) 0) sC mC []).panicked = true := by
  constructor
  · rfl
  · simp [Run, setPauseDur, New]

/-- C8 (amended): nothing validates the interval at configuration time —
`New` itself installs the positive 10 s default, but a non-positive value
assigned to the exported field afterwards is stored verbatim; instead,
`Run` with a non-positive interval panics when creating the ticker, after
the initial unconditional cycle and before any tick, so the continuous
loop still never ticks with a non-positive interval. -/
theorem interval_handling (c : Collector) (d : Int) (s : cpuStats)
    (m : MemStats) (events : List RunEvent) (hd : d ≤ 0) :
    (setPauseDur c d).PauseDur = d ∧
    (New none).PauseDur = 10 * timeSecond ∧
    (0 : Int) < 10 * timeSecond ∧
    (Run (setPauseDur c d) s m events).panicked = true ∧
    (Run (setPauseDur c d) s m events).returned = false ∧
    (Run (setPauseDur c d) s m events).emitted =
      [(outputStats (setPauseDur c d) s m).1.fields] := by
  refine ⟨rfl, rfl, by norm_num [timeSecond], ?_, ?_, ?_⟩ <;>
    simp [Run, setPauseDur, hd, outputStats_emits]

/-- C8 witness: the amended behavior at the concrete interval 0. -/
theorem interval_handling_witness :
    (setPauseDur (New none) 0).PauseDur = 0 ∧
    (Run (setPauseDur (New none) 0) sC mC []).panicked = true :=
  ⟨(interval_handling (New none) 0 sC mC [] (by norm_num)).1,
   (interval_handling (New none) 0 sC mC [] (by norm_num)).2.2.2.1⟩

/-- C9: `ToMap` produces exactly one entry per snapshot field (28 entries,
pairwise-distinct keys), each keyed by the field's name and holding the
field's value, and reading every field back out of the map reconstructs
the snapshot exactly — including the floating-point GC CPU fraction. -/
theorem toMap_roundtrip (f : Fields) :
    fieldsFromMap f.toMap = f ∧
    (f.toMap.map Prod.fst).Nodup ∧
    f.toMap.length = 28 ∧
    f.toMap.lookup "mem.gc.cpu_fraction" =
      some (MVal.f64 f.GCCPUFraction) := by
  refine ⟨rfl, ?_, rfl, rfl⟩
  simp [Fields.toMap]

/-- C10: each cycle invokes the consumer exactly once, with the current
(post-collection) snapshot — also when every category is disabled, in
which case the consumer receives the prior, possibly stale, snapshot —
and the argument is a by-value copy: the collector state produced by the
cycle is the same whatever mutation the consumer applies to its copy. -/
theorem consumer_once_by_value (c : Collector) (s : cpuStats)
    (m : MemStats) (g h : Fields → Fields) :
    (outputStats c s m).2.length = 1 ∧
    (outputStats c s m).2 = [(outputStats c s m).1.fields] ∧
    (c.EnableCPU = false → c.EnableMem = false → c.EnableGC = false →
      (outputStats c s m).2 = [c.fields]) ∧
    (outputStatsWith g c s m).1 = (outputStatsWith h c s m).1 ∧
    (outputStatsWith g c s m).1 = (outputStats c s m).1 := by
  refine ⟨rfl, rfl, ?_, rfl, rfl⟩
  intro hc hm _
  simp [outputStats, hc, hm]

/-- C10 witness: with all categories disabled the consumer still receives
exactly the prior snapshot. -/
theorem consumer_once_by_value_witness :
    (outputStats cAllOff sC mC).2 = [cAllOff.fields] :=
  (consumer_once_by_value cAllOff sC mC id id).2.2.1 rfl rfl rfl

end collector
